import Mathlib

/-!
Verification development for the openmesh/kit service-discovery and
load-balancing core (package `sd`, `sd/lb`) and the JWT parsing middleware
(`auth/jwt/middleware.go`).

The `sd`/`lb` implementation itself is not part of the provided sources
(only its tests `lb/retry_test.go` and `sd` benchmark are), so those
definitions are modelled from the specification (spec.md sections 4.1 to 4.3),
with the repository's own tests fixing the points the spec leaves loose.
The JWT middleware definitions are translated directly from
`src/auth/jwt/middleware.go`.

Time is modelled discretely: each callable invocation reports a latency,
and the retry orchestrator races the accumulated elapsed time against the
configured per-call timeout, mirroring the select over the derived
context's Done channel. The unbounded `for` loop of the retry orchestrator
is given an explicit fuel parameter; returning `none` means the fuel ran
out (a model artifact only: termination theorems show concrete fuel
suffices).
-/

/-- Modelled from the spec: the error taxonomy of section 7 as far as the
load-balancing core distinguishes values — the context's deadline-exceeded
error, the balancer's "no endpoints available" selection error, and named
invocation/discovery errors (`errors.New` values in the tests). -/
inductive BErr : Type where
  | deadlineExceeded : BErr
  | noEndpoints : BErr
  | named : String → BErr
  deriving DecidableEq, Repr

/-- Modelled from the spec: a CallableUnit (`endpoint.Endpoint`): given a
request it produces a latency (time spent blocked in the invocation) and a
response or an error. The context argument of the Go type is represented
by the latency/deadline race in the orchestrator. -/
structure CallableUnit (Req Resp : Type) : Type where
  run : Req → Nat × Except BErr Resp

/-- Modelled from the spec: the Endpointer read-side contract — the current
usable snapshot, or the underlying discovery error. A `sd.FixedEndpointer`
is `Except.ok` of a fixed list. -/
abbrev Endpointer (Req Resp : Type) : Type := Except BErr (List (CallableUnit Req Resp))

/-- Modelled from the spec: the round-robin index rule of section 4.2 —
index = counter mod len(snapshot); an empty snapshot is a selection
failure (`ErrNoEndpoints`), never an index fault. -/
def rrPick {Req Resp : Type} (snapshot : List (CallableUnit Req Resp)) (c : Nat) :
    Except BErr (CallableUnit Req Resp) :=
  match snapshot[c % snapshot.length]? with
  | some u => .ok u
  | none => .error .noEndpoints

/-- Modelled from the spec: one round-robin `Select()` call (section 4.2):
propagates the Endpointer's discovery error verbatim, otherwise picks
index = counter mod len(snapshot); the counter increments on every call,
including failed selections. Returns the selection result and the new
counter. -/
def roundRobinSelect {Req Resp : Type} (ep : Endpointer Req Resp) (c : Nat) :
    Except BErr (CallableUnit Req Resp) × Nat :=
  match ep with
  | .error e => (.error e, c + 1)
  | .ok snapshot => (rrPick snapshot c, c + 1)

/-- Modelled from the spec: the random balancer policy of section 4.2 — a
uniform pick over the snapshot driven by a value `r` drawn from the random
source; an empty snapshot is a selection failure, never an index fault. -/
def randomSelect {Req Resp : Type} (ep : Endpointer Req Resp) (r : Nat) :
    Except BErr (CallableUnit Req Resp) :=
  match ep with
  | .error e => .error e
  | .ok snapshot =>
    match snapshot[r % snapshot.length]? with
    | some u => .ok u
    | none => .error .noEndpoints

/-- The trace of `k` consecutive round-robin `Select()` calls starting from
counter `c`, threading the counter exactly as `roundRobinSelect` does. -/
def selectMany {Req Resp : Type} (ep : Endpointer Req Resp) (c : Nat) :
    Nat → List (Except BErr (CallableUnit Req Resp))
  | 0 => []
  | k + 1 => (roundRobinSelect ep c).1 :: selectMany ep (roundRobinSelect ep c).2 k

/-- Modelled from the spec: the outcome of one logical retried call.
`contextErr` is the derived context's own error returned directly (the
repository's `TestRetryTimeout` requires the bare `context.DeadlineExceeded`
value, not a wrapper); `retryError` is the terminal RetryError carrying the
raw per-attempt errors and the final error. -/
inductive RetryResult (Resp : Type) : Type where
  | ok : Resp → RetryResult Resp
  | contextErr : BErr → RetryResult Resp
  | retryError : List BErr → BErr → RetryResult Resp
  deriving DecidableEq, Repr

/-- Whether a retry outcome is a terminal RetryError. -/
def RetryResult.isRetryError {Resp : Type} : RetryResult Resp → Bool
  | .retryError _ _ => true
  | _ => false

/-- The raw error list of a terminal RetryError (empty otherwise). -/
def RetryResult.rawErrors {Resp : Type} : RetryResult Resp → List BErr
  | .retryError raw _ => raw
  | _ => []

/-- Modelled from the spec: the retry decision callback of section 4.3 —
applied to (attempt count so far, latest error), returns (keep trying,
optional replacement error). -/
def Callback : Type := Nat → BErr → Bool × Option BErr

/-- Modelled from the spec: the default attempt-count-bounded policy —
"continue while attempts consumed < configured maximum" (section 4.3,
DECIDE, default policy; matches the repository's retry tests: retries = 2
against 3 endpoints is "not quite enough", retries = 3 is "exactly
enough"). -/
def maxRetries (m : Nat) : Callback := fun n _ => (decide (n < m), none)

/-- Modelled from the spec: the SELECT / INVOKE / DECIDE loop of section
4.3. One iteration: ask the balancer for a callable (a selection failure is
treated like an invocation error and goes to DECIDE); invoke it, racing
the accumulated elapsed time plus the invocation's latency against the
per-call timeout (the deadline winning yields the context error directly);
on success return the response; on failure record the raw error, apply the
decision callback to (attempt number, error), substitute a non-nil
replacement error, and either loop or terminate with a RetryError.
Arguments after `req`: fuel, elapsed time, balancer counter, attempt
number (starting at 1), accumulated raw errors. -/
def retryAux {Req Resp : Type} (cb : Callback) (ep : Endpointer Req Resp) (timeout : Nat)
    (req : Req) : Nat → Nat → Nat → Nat → List BErr → Option (RetryResult Resp)
  | 0, _, _, _, _ => none
  | fuel + 1, elapsed, c, i, raw =>
    match (roundRobinSelect ep c).1 with
    | .error e =>
      if timeout ≤ elapsed then some (.contextErr .deadlineExceeded)
      else if (cb i e).1 then
        retryAux cb ep timeout req fuel elapsed (roundRobinSelect ep c).2 (i + 1) (raw ++ [e])
      else some (.retryError (raw ++ [e]) (((cb i e).2).getD e))
    | .ok u =>
      if timeout ≤ elapsed + (u.run req).1 then some (.contextErr .deadlineExceeded)
      else
        match (u.run req).2 with
        | .ok resp => some (.ok resp)
        | .error e =>
          if (cb i e).1 then
            retryAux cb ep timeout req fuel (elapsed + (u.run req).1)
              (roundRobinSelect ep c).2 (i + 1) (raw ++ [e])
          else some (.retryError (raw ++ [e]) (((cb i e).2).getD e))

/-- Modelled from the spec: `lb.RetryWithCallback(timeout, balancer, cb)`
applied to a request — runs the retry loop from elapsed time 0, round-robin
counter 0, attempt number 1, no raw errors. `fuel` bounds the number of
loop iterations the model may take (see `retryAux`). -/
def RetryWithCallback {Req Resp : Type} (timeout : Nat) (ep : Endpointer Req Resp)
    (cb : Callback) (fuel : Nat) (req : Req) : Option (RetryResult Resp) :=
  retryAux cb ep timeout req fuel 0 0 1 []

/-- Modelled from the spec: `lb.Retry(max, timeout, balancer)` =
`RetryWithCallback` with the default attempt-count-bounded policy. -/
def Retry {Req Resp : Type} (maxR timeout : Nat) (ep : Endpointer Req Resp)
    (fuel : Nat) (req : Req) : Option (RetryResult Resp) :=
  RetryWithCallback timeout ep (maxRetries maxR) fuel req

/-- Modelled from the spec: an endpointer whose every selected callable
fails instantaneously — either the endpointer itself reports a discovery
error, or every unit in the snapshot fails with latency 0 (this also
covers the empty snapshot, whose selection failure is instantaneous). -/
def alwaysFails {Req Resp : Type} (ep : Endpointer Req Resp) (req : Req) : Prop :=
  match ep with
  | .error _ => True
  | .ok snapshot => ∀ u ∈ snapshot, (u.run req).1 = 0 ∧ ∃ e, (u.run req).2 = .error e

/-- Modelled from the spec: a discovery event — a fresh instance list or a
discovery error (section 6). -/
inductive Event : Type where
  | instances : List String → Event
  | discoveryError : BErr → Event

/-- Modelled from the spec: the EndpointCache state of section 4.1 — the
live ordered association of instance identifiers to endpoints, plus the
sticky discovery-error state. -/
structure EndpointCache (E : Type) : Type where
  entries : List (String × E)
  err : Option BErr

/-- Modelled from the spec: a freshly constructed endpoint cache — no
entries, no error state. -/
def emptyCache {E : Type} : EndpointCache E := ⟨[], none⟩

/-- Modelled from the spec: reconciliation against a fresh instance list
(section 4.1): entries whose instance is absent from the new list are
released and removed; instances absent from the cache are run through the
factory, a success inserts a new entry and a failure skips that instance;
the discovery-error state is cleared. -/
def applyInstances {E : Type} (factory : String → Except BErr E)
    (c : EndpointCache E) (instances : List String) : EndpointCache E :=
  let kept := c.entries.filter (fun p => decide (p.1 ∈ instances))
  let added := (instances.filter (fun x => decide (x ∉ c.entries.map Prod.fst))).filterMap
    (fun x => match factory x with
      | .ok e => some (x, e)
      | .error _ => none)
  ⟨kept ++ added, none⟩

/-- Modelled from the spec: recording a discovery error (section 4.1):
the error becomes the cache's current error state and existing entries are
left untouched (stale-but-available policy). -/
def applyError {E : Type} (c : EndpointCache E) (e : BErr) : EndpointCache E :=
  ⟨c.entries, some e⟩

/-- Modelled from the spec: `Update` / ApplyInstanceSet dispatch — an event
carries either a fresh instance list or a discovery error. -/
def Update {E : Type} (factory : String → Except BErr E) (c : EndpointCache E)
    (ev : Event) : EndpointCache E :=
  match ev with
  | .instances xs => applyInstances factory c xs
  | .discoveryError e => applyError c e

/-- Modelled from the spec: `Endpoints()` (section 4.1) — the current error
if set, else the snapshot of all current entries' endpoints in order. -/
def Endpoints {E : Type} (c : EndpointCache E) : Except BErr (List E) :=
  match c.err with
  | some e => .error e
  | none => .ok (c.entries.map Prod.snd)

/-- The instance identifiers currently cached. -/
def cacheNames {E : Type} (c : EndpointCache E) : List String :=
  c.entries.map Prod.fst

/-- Applying a whole event stream in sequence (the serialized reconciliation
stream of section 5, single writer). -/
def UpdateAll {E : Type} (factory : String → Except BErr E) (c : EndpointCache E)
    (evs : List Event) : EndpointCache E :=
  evs.foldl (Update factory) c

/-- The latency and outcome of the first attempt a retried call makes: the
selection error itself (latency 0) when the balancer fails at counter 0,
else the selected unit's invocation outcome. -/
def firstAttempt {Req Resp : Type} (ep : Endpointer Req Resp) (req : Req) :
    Nat × Except BErr Resp :=
  match (roundRobinSelect ep 0).1 with
  | .error e => (0, .error e)
  | .ok u => u.run req

/-- Test fixture: the always-succeeding zero-latency unit of the retry
tests. -/
def okUnit : CallableUnit Unit Unit := ⟨fun _ => (0, .ok ())⟩

/-- Test fixture: a zero-latency unit failing with the named error. -/
def failUnit (s : String) : CallableUnit Unit Unit := ⟨fun _ => (0, .error (.named s))⟩

/-- Test fixture: a unit that blocks for `lat` before succeeding (the
blocking endpoint of `TestRetryTimeout`). -/
def slowUnit (lat : Nat) : CallableUnit Unit Unit := ⟨fun _ => (lat, .ok ())⟩

/-- Test fixture: the three-callable fixed endpointer of
`TestRetryMaxPartialFail` / `TestRetryMaxSuccess` — error one, error two,
success, in round-robin order. -/
def ep3 : Endpointer Unit Unit := .ok [failUnit "error one", failUnit "error two", okUnit]

/-- Test fixture: a factory that fails for instance "c" and succeeds with
the instance name's length otherwise. -/
def facW : String → Except BErr Nat :=
  fun s => if s = "c" then .error (.named "factory failed") else .ok s.length

/-- Context keys, from `auth/jwt/middleware.go`: the typed `contextKey`
values `JWTContextKey` ("JWTToken") and `JWTClaimsContextKey` ("JWTClaims"),
plus arbitrary keys owned by other middleware layers. -/
inductive CtxKey : Type where
  | jwtToken : CtxKey
  | jwtClaims : CtxKey
  | other : String → CtxKey
  deriving DecidableEq, Repr

/-- Context values: a `string` (the shape `ctx.Value(...).(string)` asserts),
a `jwt.Claims` value (opaque, tagged), or any other value (opaque, tagged). -/
inductive CtxVal : Type where
  | str : String → CtxVal
  | claimsVal : Nat → CtxVal
  | otherVal : Nat → CtxVal
  deriving DecidableEq, Repr

/-- A Go `context.Context` as far as value lookup is concerned: a stack of
key-value pairs, the most recent binding first. -/
abbrev Ctx : Type := List (CtxKey × CtxVal)

/-- `context.WithValue(ctx, k, v)`: a child context whose lookup finds the
new binding first. -/
def ctxWithValue (ctx : Ctx) (k : CtxKey) (v : CtxVal) : Ctx := (k, v) :: ctx

/-- `ctx.Value(k)`: the most recent binding for `k`, if any. -/
def ctxValue (ctx : Ctx) (k : CtxKey) : Option CtxVal :=
  (ctx.find? (fun p => p.1 == k)).map Prod.snd

/-- `ctx.Value(k).(string)`: the lookup followed by the string type
assertion — `none` when the key is absent or the value is not a string. -/
def ctxValueString (ctx : Ctx) (k : CtxKey) : Option String :=
  match ctxValue ctx k with
  | some (.str s) => some s
  | _ => none

/-- Go error values reaching the JWT middleware: its own sentinel errors
(from `auth/jwt/middleware.go`), the library's `*jwt.ValidationError`
(bitmask of validation failures plus an optional wrapped inner error), and
arbitrary other errors. -/
inductive GoErr : Type where
  | tokenContextMissing : GoErr
  | tokenInvalid : GoErr
  | tokenExpired : GoErr
  | tokenMalformed : GoErr
  | tokenNotActive : GoErr
  | unexpectedSigningMethod : GoErr
  | validationError : Nat → Option GoErr → GoErr
  | otherErr : String → GoErr

/-- `jwt.ValidationErrorMalformed` (golang-jwt/v4 bit flag). -/
def ValidationErrorMalformed : Nat := 1

/-- `jwt.ValidationErrorExpired` (golang-jwt/v4 bit flag). -/
def ValidationErrorExpired : Nat := 16

/-- `jwt.ValidationErrorNotValidYet` (golang-jwt/v4 bit flag). -/
def ValidationErrorNotValidYet : Nat := 128

/-- The parsed token as the middleware consumes it: the `Valid` flag and
the claims it stores into the context (opaque, tagged). -/
structure Token : Type where
  valid : Bool
  claims : Nat

/-- A Go-kit endpoint as the JWT middleware sees it: context and request
in, response and optional error out (`*new(Response)` is the supplied zero
response when an error is returned). -/
def GoEndpoint (Req Resp : Type) : Type := Ctx → Req → Resp × Option GoErr

/-- The error-mapping switch of `NewParser` (middleware.go lines 115-135):
a `*jwt.ValidationError` maps to the sentinel for the malformed, expired or
not-yet-valid bits, else to its inner error when present, else falls
through to the original error; any other error is returned unchanged. -/
def mapParseError (err : GoErr) : GoErr :=
  match err with
  | .validationError flags inner =>
    if flags &&& ValidationErrorMalformed ≠ 0 then .tokenMalformed
    else if flags &&& ValidationErrorExpired ≠ 0 then .tokenExpired
    else if flags &&& ValidationErrorNotValidYet ≠ 0 then .tokenNotActive
    else
      match inner with
      | some e => e
      | none => .validationError flags none
  | e => e

/-- `jwt.NewParser` (middleware.go lines 92-146), translated: look up the
token string in the context (`ctx.Value(JWTContextKey).(string)`); if the
assertion fails return the zero response with `ErrTokenContextMissing`;
otherwise run the library parse (here an abstract parameter folding in the
key function, expected signing method and claims factory); map a parse
error through the error switch; reject an invalid token with
`ErrTokenInvalid`; otherwise store the claims under `JWTClaimsContextKey`
and invoke the wrapped endpoint. -/
def NewParser {Req Resp : Type} (parseWithClaims : String → Except GoErr Token)
    (zeroResp : Resp) (next : GoEndpoint Req Resp) : GoEndpoint Req Resp :=
  fun ctx req =>
    match ctxValueString ctx .jwtToken with
    | none => (zeroResp, some .tokenContextMissing)
    | some tokenString =>
      match parseWithClaims tokenString with
      | .error e => (zeroResp, some (mapParseError e))
      | .ok token =>
        if token.valid then
          next (ctxWithValue ctx .jwtClaims (.claimsVal token.claims)) req
        else (zeroResp, some .tokenInvalid)

/-- One loop iteration under an instantaneously failing endpointer, before
the deadline: some error `e` is recorded and the decision callback alone
determines whether the loop continues or terminates with a RetryError. -/
theorem retryAux_step_alwaysFails {Req Resp : Type} (cb : Callback) (ep : Endpointer Req Resp)
    (T : Nat) (req : Req) (fuel c i : Nat) (raw : List BErr)
    (hfail : alwaysFails ep req) (hT : 0 < T) :
    ∃ e : BErr, retryAux cb ep T req (fuel + 1) 0 c i raw =
      (if (cb i e).1 then retryAux cb ep T req fuel 0 (c + 1) (i + 1) (raw ++ [e])
       else some (.retryError (raw ++ [e]) (((cb i e).2).getD e))) := by
  match ep with
  | .error e0 =>
    refine ⟨e0, ?_⟩
    simp [retryAux, roundRobinSelect, Nat.not_le.mpr hT]
  | .ok snapshot =>
    match hp : snapshot[c % snapshot.length]? with
    | none =>
      refine ⟨.noEndpoints, ?_⟩
      simp [retryAux, roundRobinSelect, rrPick, hp, Nat.not_le.mpr hT]
    | some u =>
      have hu : u ∈ snapshot := by
        obtain ⟨hlt, rfl⟩ := List.getElem?_eq_some.mp hp
        exact List.getElem_mem hlt
      obtain ⟨hlat, e1, herr⟩ := hfail u hu
      refine ⟨e1, ?_⟩
      simp [retryAux, roundRobinSelect, rrPick, hp, hlat, herr, Nat.not_le.mpr hT]

/-- Under an instantaneously failing endpointer and the default
attempt-count-bounded policy with maximum `R`, the loop starting at attempt
`i ≥ 1` performs exactly `max R i + 1 - i` further attempts and terminates
with a RetryError, given that much fuel. -/
theorem retryAux_maxRetries_exhausts {Req Resp : Type} (ep : Endpointer Req Resp) (req : Req)
    (R T : Nat) (hfail : alwaysFails ep req) (hT : 0 < T) :
    ∀ fuel i c raw, max R i + 1 - i ≤ fuel →
      ∃ raws final, retryAux (maxRetries R) ep T req fuel 0 c i raw =
          some (.retryError raws final) ∧ raws.length = raw.length + (max R i + 1 - i) := by
  intro fuel
  induction fuel with
  | zero =>
    intro i c raw hle
    exact absurd hle (by have := Nat.le_max_right R i; omega)
  | succ fuel ih =>
    intro i c raw hle
    obtain ⟨e, hstep⟩ := retryAux_step_alwaysFails (maxRetries R) ep T req fuel c i raw hfail hT
    by_cases hiR : i < R
    · have hcb : (maxRetries R i e).1 = true := by simp [maxRetries, hiR]
      rw [hstep, if_pos hcb]
      have hmax1 : max R i = R := Nat.max_eq_left (Nat.le_of_lt hiR)
      have hmax2 : max R (i + 1) = R := Nat.max_eq_left hiR
      obtain ⟨raws, final, heq, hlen⟩ := ih (i + 1) (c + 1) (raw ++ [e]) (by rw [hmax2]; rw [hmax1] at hle; omega)
      refine ⟨raws, final, heq, ?_⟩
      rw [hmax2] at hlen
      rw [hmax1]
      simp only [List.length_append, List.length_cons, List.length_nil] at hlen
      omega
    · have hcb : (maxRetries R i e).1 = false := by simp [maxRetries, hiR]
      rw [hstep, if_neg (by simp [hcb])]
      have hmax : max R i = i := Nat.max_eq_right (Nat.le_of_not_lt hiR)
      refine ⟨raw ++ [e], ((maxRetries R i e).2).getD e, rfl, ?_⟩
      rw [hmax]
      simp

/-- Claim C1 counterexample: with the error/error/success endpointer of the
retry tests, maxRetries=1 makes exactly one attempt (not 1+1 = 2) and fails
with the FIRST callable's error, not the second's; and against an
always-failing callable, maxRetries=2 makes exactly 2 attempts, not 2+1. -/
theorem retry_attempt_count_counterexample :
    Retry 1 1 ep3 999 () = some (.retryError [.named "error one"] (.named "error one")) ∧
    Retry 1 1 ep3 999 () ≠
      some (.retryError [.named "error one", .named "error two"] (.named "error two")) ∧
    (Retry 1 1 ep3 999 ()).map (fun r => r.rawErrors.length) = some 1 ∧ (1 : Nat) ≠ 1 + 1 ∧
    (Retry 2 1 (.ok [failUnit "boom"]) 999 ()).map (fun r => r.rawErrors.length) = some 2 ∧
    (2 : Nat) ≠ 2 + 1 := by
  refine ⟨by decide, by decide, by decide, by decide, by decide, by decide⟩

/-- Claim C1 (amended): Retry with maxRetries=R against an endpointer whose
every attempt fails instantaneously makes exactly max(R,1) total attempts
(0 retries configured still means exactly 1 attempt) before returning a
count-exhausted RetryError, provided the per-call timeout has not elapsed;
for the endpointer with 3 callables returning error, error, success in
round-robin order, maxRetries=3 succeeds with the third callable's
response, maxRetries=2 (2 total attempts) fails with the second callable's
error, and maxRetries=1 fails with the first callable's error. -/
theorem retry_attempt_count {Req Resp : Type} (ep : Endpointer Req Resp) (req : Req)
    (R T fuel : Nat) (hfail : alwaysFails ep req) (hT : 0 < T) (hfuel : max R 1 ≤ fuel) :
    (∃ raws final, Retry R T ep fuel req = some (.retryError raws final) ∧
      raws.length = max R 1) ∧
    Retry 3 1 ep3 3 () = some (.ok ()) ∧
    Retry 2 1 ep3 2 () =
      some (.retryError [.named "error one", .named "error two"] (.named "error two")) ∧
    Retry 1 1 ep3 1 () = some (.retryError [.named "error one"] (.named "error one")) := by
  refine ⟨?_, by decide, by decide, by decide⟩
  obtain ⟨raws, final, heq, hlen⟩ :=
    retryAux_maxRetries_exhausts ep req R T hfail hT fuel 1 0 [] (by omega)
  refine ⟨raws, final, heq, ?_⟩
  simpa using hlen

/-- Witness for `retry_attempt_count`: a single always-failing callable,
maxRetries=2, timeout 1, fuel 2 — exactly 2 attempts. -/
theorem retry_attempt_count_witness :
    ∃ raws final, Retry 2 1 (Except.ok [failUnit "boom"]) 2 () =
      some (.retryError raws final) ∧ raws.length = max 2 1 :=
  (retry_attempt_count (Except.ok [failUnit "boom"]) () 2 1 2
    (by
      intro u hu
      rw [List.mem_singleton] at hu
      subst hu
      exact ⟨rfl, ⟨.named "boom", rfl⟩⟩)
    (by decide) (by decide)).1

/-- Claim C2 counterexample: a unit blocking for 10 against a per-call
timeout of 1 yields the bare deadline-exceeded context error (as
`TestRetryTimeout` requires via `err != context.DeadlineExceeded`), which
is not a RetryError at all — the claim's RetryError-with-Reason-timeout
shape does not hold. -/
theorem retry_timeout_counterexample :
    Retry 999 1 (.ok [slowUnit 10]) 999 () = some (.contextErr .deadlineExceeded) ∧
    (Retry 999 1 (.ok [slowUnit 10]) 999 ()).map RetryResult.isRetryError = some false := by
  exact ⟨by decide, by decide⟩

/-- Claim C2 (amended): whenever the configured per-call timeout elapses
before the selected unit returns, the orchestrator terminates — for any
decision callback, any remaining retry budget and any fuel — and returns
the deadline-exceeded error directly (not wrapped in a RetryError). -/
theorem retry_timeout_returns_deadline {Req Resp : Type} (u : CallableUnit Req Resp)
    (cb : Callback) (T fuel : Nat) (req : Req)
    (hlat : T ≤ (u.run req).1) (hfuel : 1 ≤ fuel) :
    RetryWithCallback T (.ok [u]) cb fuel req = some (.contextErr .deadlineExceeded) := by
  match fuel, hfuel with
  | fuel + 1, _ =>
    simp [RetryWithCallback, retryAux, roundRobinSelect, rrPick, hlat]

/-- Witness for `retry_timeout_returns_deadline`: the blocking unit of
`TestRetryTimeout` with latency 10 and timeout 1, under the default policy
with budget 999. -/
theorem retry_timeout_returns_deadline_witness :
    RetryWithCallback 1 (.ok [slowUnit 10]) (maxRetries 999) 999 () =
      some (.contextErr .deadlineExceeded) :=
  retry_timeout_returns_deadline (slowUnit 10) (maxRetries 999) 1 999 () (by decide) (by decide)

/-- Claim C4: a decision callback answering (continue=false, override=E) on
the first failure terminates the orchestrator after exactly one attempt,
whatever the remaining fuel/budget; the resulting RetryError carries the
one raw error and its Final field is E when E is non-nil, else the original
attempt error. The callback is consulted exactly at (1, e₀) where e₀ is
the first attempt's own error, unchanged. -/
theorem retry_abort_first_failure {Req Resp : Type} (ep : Endpointer Req Resp) (cb : Callback)
    (T fuel : Nat) (req : Req) (e0 : BErr) (E : Option BErr)
    (hfirst : (firstAttempt ep req).2 = .error e0)
    (hT : (firstAttempt ep req).1 < T)
    (hcb : cb 1 e0 = (false, E))
    (hfuel : 1 ≤ fuel) :
    RetryWithCallback T ep cb fuel req = some (.retryError [e0] (E.getD e0)) := by
  match fuel, hfuel with
  | fuel + 1, _ =>
    match h : (roundRobinSelect ep 0).1 with
    | .error e =>
      have he : e = e0 := by simpa [firstAttempt, h] using hfirst
      subst he
      have hT0 : ¬ T ≤ 0 := by simp [firstAttempt, h] at hT; omega
      simp [RetryWithCallback, retryAux, h, hT0, hcb]
    | .ok u =>
      have h2 : (u.run req).2 = .error e0 := by simpa [firstAttempt, h] using hfirst
      have hTlt : (u.run req).1 < T := by simpa [firstAttempt, h] using hT
      simp [RetryWithCallback, retryAux, h, Nat.not_le.mpr hTlt, h2, hcb]

/-- Witness for `retry_abort_first_failure`: the empty endpointer and the
abort-early callback of `TestAbortEarlyCustomMessage` — Final is the
override error after the single (selection-failure) attempt. -/
theorem retry_abort_first_failure_witness :
    RetryWithCallback 1 (Except.ok ([] : List (CallableUnit Unit Unit)))
      (fun _ _ => (false, some (.named "aborting early"))) 999 () =
      some (.retryError [.noEndpoints] (.named "aborting early")) :=
  retry_abort_first_failure (Except.ok []) (fun _ _ => (false, some (.named "aborting early")))
    1 999 () .noEndpoints (some (.named "aborting early")) rfl (by decide) rfl (by decide)

/-- Claim C9: against an endpointer with zero available callables,
Retry with maxRetries=999 terminates for every request and any timeout
still in the future, returning a count-exhausted RetryError after exactly
999 failed selection attempts — it never loops forever. -/
theorem retry_no_endpoints_terminates {Req Resp : Type} (req : Req) (T fuel : Nat)
    (hT : 0 < T) (hfuel : 999 ≤ fuel) :
    ∃ raws final, Retry 999 T (Except.ok ([] : List (CallableUnit Req Resp))) fuel req =
      some (.retryError raws final) ∧ raws.length = 999 := by
  have hfail : alwaysFails (Except.ok ([] : List (CallableUnit Req Resp))) req := by
    intro u hu
    cases hu
  obtain ⟨raws, final, heq, hlen⟩ :=
    retryAux_maxRetries_exhausts (Except.ok []) req 999 T hfail hT fuel 1 0 [] (by omega)
  refine ⟨raws, final, heq, ?_⟩
  simpa using hlen

/-- Witness for `retry_no_endpoints_terminates`: the configuration of
`TestRetryMaxTotalFail` (no endpoints, 999 retries), timeout 1, fuel 999. -/
theorem retry_no_endpoints_terminates_witness :
    ∃ raws final, Retry 999 1 (Except.ok ([] : List (CallableUnit Unit Unit))) 999 () =
      some (.retryError raws final) ∧ raws.length = 999 :=
  retry_no_endpoints_terminates () 1 999 (by decide) (by decide)

/-- Every entry produced by a reconciliation names an instance of the
applied instance set (the spec's invariant: entries always correspond to
the most recently applied InstanceSet). -/
theorem applyInstances_names_subset {E : Type} (factory : String → Except BErr E)
    (c : EndpointCache E) (S : List String) (p : String × E)
    (hp : p ∈ (applyInstances factory c S).entries) : p.1 ∈ S := by
  simp only [applyInstances, List.mem_append] at hp
  rcases hp with h | h
  · exact of_decide_eq_true (List.mem_filter.mp h).2
  · obtain ⟨x, hx, hfac⟩ := List.mem_filterMap.mp h
    rcases hfe : factory x with e | v
    · rw [hfe] at hfac
      cases hfac
    · rw [hfe] at hfac
      cases hfac
      exact (List.mem_filter.mp hx).1

/-- Membership in the reconciled cache, characterized: an instance is
cached after applying `S` exactly when it is listed in `S` and was either
already cached or is successfully constructed by the factory. -/
theorem cacheNames_applyInstances {E : Type} (factory : String → Except BErr E)
    (c : EndpointCache E) (S : List String) (x : String) :
    x ∈ cacheNames (applyInstances factory c S) ↔
      x ∈ S ∧ (x ∈ cacheNames c ∨ ∃ e, factory x = .ok e) := by
  constructor
  · intro hx
    obtain ⟨p, hp, hpx⟩ := List.mem_map.mp hx
    subst hpx
    simp only [applyInstances, List.mem_append] at hp
    rcases hp with h | h
    · refine ⟨of_decide_eq_true (List.mem_filter.mp h).2, Or.inl ?_⟩
      exact List.mem_map.mpr ⟨p, (List.mem_filter.mp h).1, rfl⟩
    · obtain ⟨a, ha, hfac⟩ := List.mem_filterMap.mp h
      rcases hfe : factory a with e | v
      · rw [hfe] at hfac
        cases hfac
      · rw [hfe] at hfac
        cases hfac
        exact ⟨(List.mem_filter.mp ha).1, Or.inr ⟨v, hfe⟩⟩
  · rintro ⟨hxS, hor⟩
    by_cases hcached : x ∈ cacheNames c
    · obtain ⟨p, hp, hpx⟩ := List.mem_map.mp hcached
      refine List.mem_map.mpr ⟨p, ?_, hpx⟩
      simp only [applyInstances, List.mem_append]
      exact Or.inl (List.mem_filter.mpr ⟨hp, decide_eq_true (hpx ▸ hxS)⟩)
    · rcases hor with h | ⟨e, hfe⟩
      · exact absurd h hcached
      · refine List.mem_map.mpr ⟨(x, e), ?_, rfl⟩
        simp only [applyInstances, List.mem_append]
        refine Or.inr (List.mem_filterMap.mpr ⟨x, ?_, ?_⟩)
        · exact List.mem_filter.mpr ⟨hxS, decide_eq_true hcached⟩
        · rw [hfe]

/-- Claim C5: applying InstanceSets S1 then S2 to a fresh EndpointCache,
the cache after S2 (i) never holds an entry for an instance absent from
S2; (ii) holds exactly the instances of S2 that were either already cached
after S1 or successfully constructed by the factory; (iii) `Endpoints()`
returns precisely the cached callables, in order; and (iv) in general,
after any reconciliation every entry corresponds to an instance of the
most recently applied InstanceSet. -/
theorem cache_reconcile_exact {E : Type} (factory : String → Except BErr E)
    (S1 S2 : List String) (p : String × E) (x : String)
    (hp : p ∈ (applyInstances factory (applyInstances factory emptyCache S1) S2).entries) :
    p.1 ∈ S2 ∧
    (x ∈ cacheNames (applyInstances factory (applyInstances factory emptyCache S1) S2) ↔
      x ∈ S2 ∧ (x ∈ cacheNames (applyInstances factory emptyCache S1) ∨
        ∃ e, factory x = .ok e)) ∧
    Endpoints (applyInstances factory (applyInstances factory emptyCache S1) S2) =
      .ok ((applyInstances factory (applyInstances factory emptyCache S1) S2).entries.map
        Prod.snd) ∧
    (∀ (c : EndpointCache E) (S : List String) (q : String × E),
      q ∈ (applyInstances factory c S).entries → q.1 ∈ S) := by
  refine ⟨applyInstances_names_subset factory _ S2 p hp, cacheNames_applyInstances factory _ S2 x,
    rfl, fun c S q hq => applyInstances_names_subset factory c S q hq⟩

/-- Witness for `cache_reconcile_exact`: S1 = [a, b], S2 = [b, c] with a
factory that fails on c — the entry for b survives into the reconciled
cache and b is listed in S2. -/
theorem cache_reconcile_exact_witness :
    ("b", 1) ∈ (applyInstances facW (applyInstances facW emptyCache ["a", "b"]) ["b", "c"]).entries ∧
    ("b" : String) ∈ (["b", "c"] : List String) := by
  have hp : ("b", 1) ∈
      (applyInstances facW (applyInstances facW emptyCache ["a", "b"]) ["b", "c"]).entries := by
    decide
  exact ⟨hp, (cache_reconcile_exact facW ["a", "b"] ["b", "c"] ("b", 1) "b" hp).1⟩

/-- A stream consisting solely of discovery-error events keeps the cache's
error state set: reads keep failing until a successful instance-set
application arrives. -/
theorem updateAll_discoveryErrors_sticky {E : Type} (factory : String → Except BErr E) :
    ∀ (evs : List Event) (c : EndpointCache E),
      (∀ ev ∈ evs, ∃ e2, ev = .discoveryError e2) → (∃ e0, c.err = some e0) →
      ∃ e3, (UpdateAll factory c evs).err = some e3 := by
  intro evs
  induction evs with
  | nil =>
    intro c _ h
    exact h
  | cons ev evs ih =>
    intro c hev h
    obtain ⟨e2, rfl⟩ := hev ev (List.mem_cons_self ev evs)
    exact ih (applyError c e2) (fun x hx => hev x (List.mem_cons_of_mem _ hx)) ⟨e2, rfl⟩

/-- Claim C6: recording a non-nil discovery error leaves every existing
entry untouched, makes `Endpoints()` return that error, keeps reads
failing across any further all-error stream, and a subsequent successful
ApplyInstanceSet clears the error state. -/
theorem cache_discovery_error_policy {E : Type} (factory : String → Except BErr E)
    (c : EndpointCache E) (e : BErr) (xs : List String) (evs : List Event)
    (hev : ∀ ev ∈ evs, ∃ e2, ev = .discoveryError e2) :
    (applyError c e).entries = c.entries ∧
    Endpoints (applyError c e) = .error e ∧
    (∃ e3, Endpoints (UpdateAll factory (applyError c e) evs) = .error e3) ∧
    (applyInstances factory (applyError c e) xs).err = none := by
  refine ⟨rfl, rfl, ?_, rfl⟩
  obtain ⟨e3, h3⟩ := updateAll_discoveryErrors_sticky factory evs (applyError c e) hev ⟨e, rfl⟩
  exact ⟨e3, by simp [Endpoints, h3]⟩

/-- Witness for `cache_discovery_error_policy`: a one-entry cache, a
discovery error, then a second discovery error, then recovery via
instance set [a]. -/
theorem cache_discovery_error_policy_witness :
    (applyError (⟨[("a", 1)], none⟩ : EndpointCache Nat) (.named "down")).entries =
      [("a", 1)] ∧
    Endpoints (applyError (⟨[("a", 1)], none⟩ : EndpointCache Nat) (.named "down")) =
      .error (.named "down") ∧
    (∃ e3, Endpoints (UpdateAll facW
      (applyError (⟨[("a", 1)], none⟩ : EndpointCache Nat) (.named "down"))
      [.discoveryError (.named "still down")]) = .error e3) ∧
    (applyInstances facW
      (applyError (⟨[("a", 1)], none⟩ : EndpointCache Nat) (.named "down")) ["a"]).err = none :=
  cache_discovery_error_policy facW ⟨[("a", 1)], none⟩ (.named "down") ["a"]
    [.discoveryError (.named "still down")]
    (fun ev hev => by
      rw [List.mem_singleton] at hev
      exact ⟨.named "still down", hev⟩)

/-- The trace of `k` round-robin calls from counter `c` is the pick at
counters c, c+1, ..., c+k-1 — the counter increments on every call. -/
theorem selectMany_eq_map_range {Req Resp : Type} (snap : List (CallableUnit Req Resp)) :
    ∀ (k c : Nat), selectMany (.ok snap) c k =
      (List.range k).map (fun j => rrPick snap (c + j)) := by
  intro k
  induction k with
  | zero => intro c; rfl
  | succ k ih =>
    intro c
    rw [List.range_succ_eq_map, List.map_cons, List.map_map]
    show rrPick snap c :: selectMany (.ok snap) (c + 1) k = _
    rw [ih (c + 1)]
    refine congrArg₂ _ (by rw [Nat.add_zero]) ?_
    refine List.map_congr_left fun j _ => ?_
    simp only [Function.comp_apply]
    rw [show c + (j + 1) = c + 1 + j by omega]

/-- The round-robin pick depends on the counter only through its residue
modulo the snapshot length. -/
theorem rrPick_mod {Req Resp : Type} (snap : List (CallableUnit Req Resp)) (m : Nat) :
    rrPick snap (m % snap.length) = rrPick snap m := by
  simp [rrPick, Nat.mod_mod_of_dvd]

/-- Shifting the range 0..n-1 by any constant and reducing modulo n
permutes the range: the basis of round-robin fairness. -/
theorem range_map_mod_perm (n c : Nat) (hn : 0 < n) :
    ((List.range n).map (fun j => (c + j) % n)).Perm (List.range n) := by
  have hnodup : ((List.range n).map (fun j => (c + j) % n)).Nodup := by
    refine (List.nodup_range n).map_on ?_
    intro x hx y hy hxy
    rw [List.mem_range] at hx hy
    have h2 : x % n = y % n := Nat.ModEq.add_left_cancel' c hxy
    rwa [Nat.mod_eq_of_lt hx, Nat.mod_eq_of_lt hy] at h2
  have hsub : ((List.range n).map (fun j => (c + j) % n)) ⊆ List.range n := by
    intro a ha
    obtain ⟨j, _, rfl⟩ := List.mem_map.mp ha
    exact List.mem_range.mpr (Nat.mod_lt _ hn)
  exact (List.subperm_of_subset hnodup hsub).perm_of_length_le (by simp)

/-- Picking at each counter value 0..n-1 enumerates the snapshot in
order. -/
theorem range_map_rrPick {Req Resp : Type} (snap : List (CallableUnit Req Resp)) :
    (List.range snap.length).map (fun m => rrPick snap m) = snap.map Except.ok := by
  induction snap with
  | nil => rfl
  | cons u us ih =>
    rw [List.length_cons, List.range_succ_eq_map, List.map_cons, List.map_map]
    refine congrArg₂ _ ?_ ?_
    · simp [rrPick]
    · rw [← ih]
      refine List.map_congr_left fun j hj => ?_
      rw [List.mem_range] at hj
      simp only [Function.comp_apply, rrPick, List.length_cons]
      rw [Nat.mod_eq_of_lt (Nat.succ_lt_succ hj), Nat.mod_eq_of_lt hj, List.getElem?_cons_succ]

/-- Claim C7: over an unchanging snapshot of size N ≥ 1, N consecutive
round-robin Select() calls starting from any counter value are exactly the
picks at counter, counter+1, ..., counter+N-1 (index = counter mod N,
counter incremented on every call), and they form a permutation of the
snapshot — each entry is visited exactly once. -/
theorem roundRobin_fairness {Req Resp : Type} (snap : List (CallableUnit Req Resp)) (c : Nat)
    (h : 1 ≤ snap.length) :
    selectMany (.ok snap) c snap.length =
      (List.range snap.length).map (fun j => rrPick snap (c + j)) ∧
    (selectMany (.ok snap) c snap.length).Perm (snap.map Except.ok) := by
  refine ⟨selectMany_eq_map_range snap snap.length c, ?_⟩
  rw [selectMany_eq_map_range snap snap.length c]
  have h1 : (List.range snap.length).map (fun j => rrPick snap (c + j)) =
      ((List.range snap.length).map (fun j => (c + j) % snap.length)).map
        (fun m => rrPick snap m) := by
    rw [List.map_map]
    exact (List.map_congr_left fun j _ => (rrPick_mod snap (c + j)).symm)
  rw [h1, ← range_map_rrPick]
  exact (range_map_mod_perm snap.length c h).map (fun m => rrPick snap m)

/-- Witness for `roundRobin_fairness`: a two-entry snapshot starting from
counter 5 — the two selections are a permutation of the snapshot. -/
theorem roundRobin_fairness_witness :
    (selectMany (.ok [failUnit "a", okUnit]) 5 2).Perm
      ([failUnit "a", okUnit].map Except.ok) :=
  (roundRobin_fairness [failUnit "a", okUnit] 5 (by decide)).2

/-- Claim C8: for both balancer policies, Select() on an empty snapshot
returns the "no endpoints" selection error (the round-robin counter still
advancing), and on any snapshot whatsoever a selection either returns a
member of that snapshot or the selection error — never an out-of-range
access, whatever the counter or random value, so the snapshot may change
size or become empty between calls. -/
theorem select_empty_snapshot_fails {Req Resp : Type} (c r : Nat)
    (snap : List (CallableUnit Req Resp)) :
    roundRobinSelect (Except.ok ([] : List (CallableUnit Req Resp))) c =
      (.error .noEndpoints, c + 1) ∧
    randomSelect (Except.ok ([] : List (CallableUnit Req Resp))) r = .error .noEndpoints ∧
    ((∃ u, rrPick snap c = .ok u ∧ u ∈ snap) ∨ rrPick snap c = .error .noEndpoints) ∧
    ((∃ u, randomSelect (.ok snap) r = .ok u ∧ u ∈ snap) ∨
      randomSelect (.ok snap) r = .error .noEndpoints) := by
  refine ⟨by simp [roundRobinSelect, rrPick], by simp [randomSelect], ?_, ?_⟩
  · match hp : snap[c % snap.length]? with
    | some u =>
      obtain ⟨hlt, rfl⟩ := List.getElem?_eq_some.mp hp
      exact Or.inl ⟨_, by simp [rrPick, hp], List.getElem_mem hlt⟩
    | none => exact Or.inr (by simp [rrPick, hp])
  · match hp : snap[r % snap.length]? with
    | some u =>
      obtain ⟨hlt, rfl⟩ := List.getElem?_eq_some.mp hp
      exact Or.inl ⟨_, by simp [randomSelect, hp], List.getElem_mem hlt⟩
    | none => exact Or.inr (by simp [randomSelect, hp])

/-- Claim C10: when the context does not carry a string under
`JWTContextKey`, the parser middleware returns the zero response together
with `ErrTokenContextMissing`, and its output does not depend on the
wrapped endpoint — the wrapped endpoint is never invoked. -/
theorem parser_missing_token {Req Resp : Type} (parseWithClaims : String → Except GoErr Token)
    (zeroResp : Resp) (next : GoEndpoint Req Resp) (ctx : Ctx) (req : Req)
    (h : ctxValueString ctx .jwtToken = none) :
    NewParser parseWithClaims zeroResp next ctx req = (zeroResp, some .tokenContextMissing) ∧
    (∀ next2 : GoEndpoint Req Resp,
      NewParser parseWithClaims zeroResp next ctx req =
        NewParser parseWithClaims zeroResp next2 ctx req) := by
  constructor
  · simp [NewParser, h]
  · intro next2
    simp [NewParser, h]

/-- Witness for `parser_missing_token`: a context holding only a non-string
value under `JWTContextKey` — the string type assertion fails and the
middleware short-circuits. -/
theorem parser_missing_token_witness :
    NewParser (fun _ => .ok ⟨true, 0⟩) () (fun _ _ => ((), none))
        [(CtxKey.jwtToken, CtxVal.otherVal 7)] () = ((), some .tokenContextMissing) :=
  (parser_missing_token (fun _ => .ok ⟨true, 0⟩) () (fun _ _ => ((), none))
    [(CtxKey.jwtToken, CtxVal.otherVal 7)] () rfl).1
